import Mathlib

/-
Shallow embedding of the chess GUI backend (src/chess_backend.py, class ChessGame)
and verification of its specification.

Modelling conventions:
* Python strings are modelled as `List Char` (`Ustr`).  Only ASCII behaviour of
  `str.lower` / `str.strip` / `str.split` is modelled, which covers every string
  the program manipulates (UCI move tokens, FEN strings, ASCII responses).
* The rules engine (the external `python-chess` library) is opaque to the core:
  a `Board` packages the queries the core makes of it (`turn`, `piece_at`,
  `legal_moves`, `is_game_over`, and the FEN serialization used only as an
  identity tag), and `board.push` is passed in as an explicit function
  `push : Board → Move → Board` supplied by the environment.
* The network transport (`requests.post`) is an explicit input
  (`TransportOutcome`), and persistence outcomes are explicit inputs
  (`PersistEnv`).  Python exceptions are modelled with `Except PyExn`.
* `chess.WHITE = True`, `chess.BLACK = False`; `chess.square_file s = s % 8`,
  `chess.square_rank s = s / 8`, `chess.square f r = r * 8 + f`.
-/

namespace ChessBackend

/-- Python strings, modelled as lists of characters. -/
abbrev Ustr := List Char

/-- Python exceptions that the embedded code can raise or catch.
`indexError` models `IndexError` (raised by `move.split()[0]` on an empty
token list); `valueError` models `chess.InvalidMoveError` from
`chess.Move.from_uci`. -/
inductive PyExn
  | indexError
  | valueError
deriving DecidableEq, Repr

/-- ASCII whitespace, as recognised by Python's `str.split()` / `str.strip()`
(space, tab, newline, carriage return, vertical tab, form feed). -/
def pyIsSpace (c : Char) : Bool :=
  c.toNat = 32 || c.toNat = 9 || c.toNat = 10 || c.toNat = 13 ||
    c.toNat = 11 || c.toNat = 12

/-- ASCII lower-casing of one character, as done by Python's `str.lower` on the
ASCII range (the only range the program's strings use). -/
def pyLowerChar (c : Char) : Char :=
  if c = 'A' then 'a' else if c = 'B' then 'b' else if c = 'C' then 'c'
  else if c = 'D' then 'd' else if c = 'E' then 'e' else if c = 'F' then 'f'
  else if c = 'G' then 'g' else if c = 'H' then 'h' else if c = 'I' then 'i'
  else if c = 'J' then 'j' else if c = 'K' then 'k' else if c = 'L' then 'l'
  else if c = 'M' then 'm' else if c = 'N' then 'n' else if c = 'O' then 'o'
  else if c = 'P' then 'p' else if c = 'Q' then 'q' else if c = 'R' then 'r'
  else if c = 'S' then 's' else if c = 'T' then 't' else if c = 'U' then 'u'
  else if c = 'V' then 'v' else if c = 'W' then 'w' else if c = 'X' then 'x'
  else if c = 'Y' then 'y' else if c = 'Z' then 'z' else c

/-- Python `str.lower` (ASCII fragment). -/
def pyLower (s : Ustr) : Ustr := s.map pyLowerChar

/-- Python `str.strip()`: remove leading and trailing whitespace. -/
def pyStrip (s : Ustr) : Ustr :=
  ((s.dropWhile pyIsSpace).reverse.dropWhile pyIsSpace).reverse

/-- Helper for Python `str.split()`: `acc` is the current (reversed) token. -/
def splitWsAux : List Char → List Char → List (List Char)
  | [], acc => if acc = [] then [] else [acc.reverse]
  | c :: s, acc =>
    if pyIsSpace c then
      (if acc = [] then splitWsAux s [] else acc.reverse :: splitWsAux s [])
    else splitWsAux s (c :: acc)

/-- Python `str.split()` with no separator: split on whitespace runs,
dropping empty tokens. -/
def pySplit (s : Ustr) : List Ustr := splitWsAux s []

/-- Outcome of the `requests.post` call to the suggestion service, as seen by
the application layer.  `exn` models a raised `requests.RequestException`
(connection failure or timeout).  `resp status body` models a returned
response; `body` is `.error ()` when `response.json()` raises
`json.JSONDecodeError`, and otherwise carries the optional string value of the
JSON field `"response"` (`.get("response", "")` supplies `""` when absent). -/
inductive TransportOutcome
  | exn
  | resp (status : Nat) (body : Except Unit (Option Ustr))

/-- `ChessGame.get_ai_move` (src/chess_backend.py lines 224-284), with the
rules-engine call `chess.Board(fen).legal_moves` abstracted into the input
`legal_moves` (the UCI encodings of the legal moves of the position denoted by
the `fen` argument), and the transport call abstracted into `t`.
Returns the Python result (`Except` models an uncaught exception escaping the
function) together with a flag recording whether `requests.post` was invoked. -/
def get_ai_move (legal_moves : List Ustr) (t : TransportOutcome) :
    Except PyExn (Option Ustr) × Bool :=
  if legal_moves.isEmpty then (.ok none, false)
  else
    match t with
    | .exn => (.ok none, true)
    | .resp status body =>
      if status ≠ 200 then (.ok none, true)
      else
        match body with
        | .error _ => (.ok none, true)
        | .ok field =>
          match pySplit (pyLower (pyStrip (field.getD []))) with
          | [] => (.error .indexError, true)
          | w :: _ =>
            if w ∈ legal_moves then (.ok (some w), true) else (.ok none, true)

/-- A piece as the core reads it from the rules engine: `color` is
`python-chess` colour (`true` = white), `symbol` is `str(piece)`. -/
structure Piece where
  color : Bool
  symbol : Ustr
deriving DecidableEq, Repr

/-- `chess.Move`: from-square, to-square, optional promotion piece type
(python-chess piece types: pawn 1, knight 2, bishop 3, rook 4, queen 5,
king 6).  `chess.Move(a, b)` leaves `promotion = None`.  Equality is
structural, as in python-chess. -/
structure Move where
  from_square : Nat
  to_square : Nat
  promotion : Option Nat
deriving DecidableEq, Repr

/-- The rules engine's view of a position, as consumed by the core:
the side to move (`true` = white), occupancy, the legal-move set (a list whose
membership is what the core consumes), terminal status, and the FEN
serialization (used by the core only to hand the position to `get_ai_move`;
here it also serves as an identity tag for concrete test positions). -/
structure Board where
  turn : Bool
  piece_at : Nat → Option Piece
  legal_moves : List Move
  is_game_over : Bool
  fen : Ustr

/-- The mutable state of `ChessGame` that the session logic touches:
the board, the PGN record (`self.game`/`self.node`, as the ordered list of
moves added via `add_variation`), the number of `save_game` (persist) calls
made so far, and the selection/drag state. -/
structure GameState where
  board : Board
  record : List Move
  saves : Nat
  selected_square : Option Nat
  legal_moves : List Move
  dragging : Bool
  drag_piece : Option Ustr
  drag_pos : Option (Int × Int)

/-- `SQUARE_SIZE = WIDTH // 8 = 480 // 8`. -/
def SQUARE_SIZE : Int := 60

/-- `ChessGame.square_to_pos` (lines 126-130): chess square (0-63) to screen
position.  `file_idx = chess.square_file(square)`,
`rank_idx = 7 - chess.square_rank(square)`. -/
def square_to_pos (square : Nat) : Int × Int :=
  (((square % 8 : Nat) : Int) * SQUARE_SIZE,
   ((7 : Int) - ((square / 8 : Nat) : Int)) * SQUARE_SIZE)

/-- `ChessGame.pos_to_square` (lines 132-139): screen position to chess square,
`None` when outside the board.  Python `//` is floor division (`Int.fdiv`). -/
def pos_to_square (pos : Int × Int) : Option Nat :=
  let file_idx := pos.1.fdiv SQUARE_SIZE
  let rank_idx := (7 : Int) - pos.2.fdiv SQUARE_SIZE
  if 0 ≤ file_idx ∧ file_idx ≤ 7 ∧ 0 ≤ rank_idx ∧ rank_idx ≤ 7 then
    some (rank_idx * 8 + file_idx).toNat
  else none

/-- Outcome of the file-system write attempted by `save_game`. -/
inductive PersistEnv
  | ioError
  | success
deriving DecidableEq, Repr

/-- `ChessGame.save_game` (lines 213-222).  The whole body is wrapped in
`try ... except IOError`, and every failure of the directory creation or file
write is an `IOError` (= `OSError`), so an I/O failure is caught and logged and
nothing escapes.  The function only reads `self.game`; it returns the state
unchanged together with the artifact written: `none` on failure, and on
success the serialization of the full in-memory record (the entire PGN game is
printed on every call). -/
def save_game (env : PersistEnv) (st : GameState) :
    Except PyExn (GameState × Option (List Move)) :=
  match env with
  | .ioError => .ok (st, none)
  | .success => .ok (st, some st.record)

/-- `ChessGame.make_move` (lines 207-211): push the move, add it to the PGN
record, and auto-save (counted in `saves`; `save_game` itself never fails,
see `save_game`). -/
def make_move (push : Board → Move → Board) (st : GameState) (m : Move) :
    GameState :=
  { st with board := push st.board m, record := st.record ++ [m],
            saves := st.saves + 1 }

/-- `ChessGame.handle_click` (lines 183-205).  `mouse` is the value of
`pygame.mouse.get_pos()` at handling time.  Returns the new state together
with the move committed via `make_move`, if any. -/
def handle_click (push : Board → Move → Board) (mouse : Int × Int)
    (st : GameState) (pos : Int × Int) : GameState × Option Move :=
  match pos_to_square pos with
  | none => (st, none)
  | some square =>
    match st.selected_square with
    | none =>
      match st.board.piece_at square with
      | some piece =>
        if piece.color = st.board.turn then
          ({ st with
              selected_square := some square,
              legal_moves :=
                st.board.legal_moves.filter (fun m => m.from_square = square),
              drag_piece := some piece.symbol,
              dragging := true,
              drag_pos := some mouse }, none)
        else (st, none)
      | none => (st, none)
    | some sel =>
      let move : Move := ⟨sel, square, none⟩
      let st1 := if move ∈ st.legal_moves then make_move push st move else st
      ({ st1 with
          selected_square := none,
          legal_moves := [],
          dragging := false,
          drag_piece := none },
       if move ∈ st.legal_moves then some move else none)

/-- python-chess `chess.piece_symbol`: piece-type number to symbol. -/
def piece_symbol (p : Nat) : Char :=
  if p = 1 then 'p' else if p = 2 then 'n' else if p = 3 then 'b'
  else if p = 4 then 'r' else if p = 5 then 'q' else 'k'

/-- python-chess `chess.square_name`: file letter then rank digit. -/
def square_name (s : Nat) : Ustr :=
  [Char.ofNat (97 + s % 8), Char.ofNat (49 + s / 8)]

/-- python-chess `Move.uci()`: from-square name, to-square name, and the
promotion piece symbol when present. -/
def uci (m : Move) : Ustr :=
  square_name m.from_square ++ square_name m.to_square ++
    (match m.promotion with | some p => [piece_symbol p] | none => [])

/-- Parse a two-character square name (file `a`-`h`, rank `1`-`8`). -/
def parse_square (f r : Char) : Option Nat :=
  if 97 ≤ f.toNat ∧ f.toNat ≤ 104 ∧ 49 ≤ r.toNat ∧ r.toNat ≤ 56 then
    some ((r.toNat - 49) * 8 + (f.toNat - 97))
  else none

/-- Parse a promotion piece symbol. -/
def parse_promotion (c : Char) : Option Nat :=
  if c = 'n' then some 2 else if c = 'b' then some 3
  else if c = 'r' then some 4 else if c = 'q' then some 5 else none

/-- python-chess `Move.from_uci`: `"0000"` is the null move, otherwise a
4-character from/to token or a 5-character token with promotion.
`none` models a raised `chess.InvalidMoveError`. -/
def from_uci (s : Ustr) : Option Move :=
  if s = "0000".data then some ⟨0, 0, none⟩
  else
    match s with
    | [a, b, c, d] =>
      match parse_square a b, parse_square c d with
      | some f, some t => some ⟨f, t, none⟩
      | _, _ => none
    | [a, b, c, d, e] =>
      match parse_square a b, parse_square c d, parse_promotion e with
      | some f, some t, some p => some ⟨f, t, some p⟩
      | _, _, _ => none
    | _ => none

/-- A pygame event as consumed by `_main_loop` (lines 315-324):
`QUIT`, `MOUSEBUTTONDOWN`/`MOUSEBUTTONUP` with a button number and a screen
position, `MOUSEMOTION` with a position. -/
inductive PEvent
  | quit
  | down (button : Nat) (pos : Int × Int)
  | up (button : Nat) (pos : Int × Int)
  | motion (pos : Int × Int)

/-- The event loop of one `_main_loop` iteration (lines 315-324): clicks on
button 1 call `handle_click`; a button-1 release calls it only while dragging;
motion while dragging updates `drag_pos`; `QUIT` clears the running flag.
Returns the final state, the running flag, and the moves committed (in
order). -/
def process_events (push : Board → Move → Board) :
    GameState → Bool → List PEvent → GameState × Bool × List Move
  | st, running, [] => (st, running, [])
  | st, running, e :: rest =>
    match e with
    | .quit => process_events push st false rest
    | .down b pos =>
      if b = 1 then
        let r := handle_click push pos st pos
        let k := process_events push r.1 running rest
        (k.1, k.2.1, r.2.toList ++ k.2.2)
      else process_events push st running rest
    | .up b pos =>
      if b = 1 ∧ st.dragging then
        let r := handle_click push pos st pos
        let k := process_events push r.1 running rest
        (k.1, k.2.1, r.2.toList ++ k.2.2)
      else process_events push st running rest
    | .motion pos =>
      if st.dragging then
        process_events push { st with drag_pos := some pos } running rest
      else process_events push st running rest

/-- The agent-move block of one `_main_loop` iteration (lines 326-335).
When it is Black's turn (`chess.BLACK = False`) and the game is not over, the
loop calls `get_ai_move(self.board.fen())` — whose internal
`chess.Board(fen).legal_moves` equals `self.board.legal_moves` — and then
either applies the suggested move or executes `break`.
Returns the new state and whether `break` was executed; a `.error` result
models an exception propagating out of the loop (nothing catches it). -/
def agent_phase (push : Board → Move → Board) (st : GameState)
    (t : TransportOutcome) : Except PyExn (GameState × Bool) :=
  if st.board.turn = false ∧ st.board.is_game_over = false then
    match (get_ai_move (st.board.legal_moves.map uci) t).1 with
    | .error e => .error e
    | .ok ai =>
      match ai with
      | some s =>
        if s ≠ [] then
          match from_uci s with
          | none => .error .valueError
          | some m =>
            if m ∈ st.board.legal_moves then .ok (make_move push st m, false)
            else .ok (st, true)
        else .ok (st, true)
      | none => .ok (st, true)
  else .ok (st, false)

/-- How one `_main_loop` iteration ends: loop continues, loop stops via the
running flag (QUIT or natural game over), or the agent block executed `break`
(the aborted session end). -/
inductive LoopExit
  | cont
  | stopped
  | aborted
deriving DecidableEq, Repr

/-- One full iteration of `ChessGame._main_loop` (lines 309-342): process the
pending events, then the agent-move block, then the game-over check (which
saves once and clears the running flag).  `break` skips the game-over check
and exits the loop directly. -/
def loop_iter (push : Board → Move → Board) (st : GameState)
    (events : List PEvent) (t : TransportOutcome) :
    Except PyExn (GameState × LoopExit) :=
  let p := process_events push st true events
  match agent_phase push p.1 t with
  | .error e => .error e
  | .ok (st2, broke) =>
    if broke then .ok (st2, .aborted)
    else
      let r :=
        if st2.board.is_game_over then
          ({ st2 with saves := st2.saves + 1 }, false)
        else (st2, p.2.1)
      .ok (r.1, if r.2 then .cont else .stopped)

/-- The state `ChessGame.__init__` (lines 59-73) sets up over a given starting
board: fresh `chess.pgn.Game` record, no selection, no drag. -/
def init_state (b : Board) : GameState :=
  { board := b, record := [], saves := 0, selected_square := none,
    legal_moves := [], dragging := false, drag_piece := none,
    drag_pos := none }

/-- White Ke1 Ra1, Black Ke8 Ra8, Black to move
(FEN `r3k3/8/8/8/8/8/8/R3K3 b - - 0 1`): a concrete position with Black to
move, used to exercise the agent-move block. -/
def board_kr : Board :=
  { turn := false,
    piece_at := fun s =>
      if s = 0 then some ⟨true, "R".data⟩
      else if s = 4 then some ⟨true, "K".data⟩
      else if s = 56 then some ⟨false, "r".data⟩
      else if s = 60 then some ⟨false, "k".data⟩
      else none,
    legal_moves :=
      [⟨56, 48, none⟩, ⟨56, 40, none⟩, ⟨56, 32, none⟩, ⟨56, 24, none⟩,
       ⟨56, 16, none⟩, ⟨56, 8, none⟩, ⟨56, 0, none⟩, ⟨56, 57, none⟩,
       ⟨56, 58, none⟩, ⟨56, 59, none⟩, ⟨60, 51, none⟩, ⟨60, 52, none⟩,
       ⟨60, 53, none⟩, ⟨60, 59, none⟩, ⟨60, 61, none⟩],
    is_game_over := false,
    fen := "r3k3/8/8/8/8/8/8/R3K3 b - - 0 1".data }

/-- Session state awaiting the agent's move in `board_kr`. -/
def c1_state : GameState := init_state board_kr

/-- White Ke1 Pe7, Black Kh8, White to move
(FEN `7k/4P3/8/8/8/8/8/4K3 w - - 0 1`): the only legal moves of the pawn on
e7 (square 52) are the four promotions to e8 (square 60). -/
def c3_board : Board :=
  { turn := true,
    piece_at := fun s =>
      if s = 4 then some ⟨true, "K".data⟩
      else if s = 52 then some ⟨true, "P".data⟩
      else if s = 63 then some ⟨false, "k".data⟩
      else none,
    legal_moves :=
      [⟨52, 60, some 5⟩, ⟨52, 60, some 4⟩, ⟨52, 60, some 3⟩, ⟨52, 60, some 2⟩,
       ⟨4, 3, none⟩, ⟨4, 11, none⟩, ⟨4, 12, none⟩, ⟨4, 13, none⟩,
       ⟨4, 5, none⟩],
    is_game_over := false,
    fen := "7k/4P3/8/8/8/8/8/4K3 w - - 0 1".data }

/-- Session state in which the pawn on e7 has just been selected: the cached
legal moves from square 52 are exactly the four promotion moves. -/
def c3_state : GameState :=
  { board := c3_board, record := [], saves := 0,
    selected_square := some 52,
    legal_moves :=
      [⟨52, 60, some 5⟩, ⟨52, 60, some 4⟩, ⟨52, 60, some 3⟩, ⟨52, 60, some 2⟩],
    dragging := true, drag_piece := some "P".data, drag_pos := some (240, 0) }

/-- White Ke1 Pa2, Black Ke8 Pa7, White to move
(FEN `4k3/p7/8/8/8/8/P7/4K3 w - - 0 1`). -/
def boardP1 : Board :=
  { turn := true,
    piece_at := fun s =>
      if s = 4 then some ⟨true, "K".data⟩
      else if s = 8 then some ⟨true, "P".data⟩
      else if s = 60 then some ⟨false, "k".data⟩
      else if s = 48 then some ⟨false, "p".data⟩
      else none,
    legal_moves :=
      [⟨8, 16, none⟩, ⟨8, 24, none⟩, ⟨4, 3, none⟩, ⟨4, 11, none⟩,
       ⟨4, 12, none⟩, ⟨4, 13, none⟩, ⟨4, 5, none⟩],
    is_game_over := false,
    fen := "4k3/p7/8/8/8/8/P7/4K3 w - - 0 1".data }

/-- `boardP1` after White plays a2a3: Black to move
(FEN `4k3/p7/8/8/8/P7/8/4K3 b - - 0 1`). -/
def boardP2 : Board :=
  { turn := false,
    piece_at := fun s =>
      if s = 4 then some ⟨true, "K".data⟩
      else if s = 16 then some ⟨true, "P".data⟩
      else if s = 60 then some ⟨false, "k".data⟩
      else if s = 48 then some ⟨false, "p".data⟩
      else none,
    legal_moves :=
      [⟨48, 40, none⟩, ⟨48, 32, none⟩, ⟨60, 51, none⟩, ⟨60, 52, none⟩,
       ⟨60, 53, none⟩, ⟨60, 59, none⟩, ⟨60, 61, none⟩],
    is_game_over := false,
    fen := "4k3/p7/8/8/8/P7/8/4K3 b - - 0 1".data }

/-- `boardP2` after Black plays e8e7: White to move
(FEN `8/p3k3/8/8/8/P7/8/4K3 w - - 1 2`).  The black pawn move a7a6 is not
legal here — it is not White's move to make. -/
def boardP3 : Board :=
  { turn := true,
    piece_at := fun s =>
      if s = 4 then some ⟨true, "K".data⟩
      else if s = 16 then some ⟨true, "P".data⟩
      else if s = 52 then some ⟨false, "k".data⟩
      else if s = 48 then some ⟨false, "p".data⟩
      else none,
    legal_moves :=
      [⟨16, 24, none⟩, ⟨4, 3, none⟩, ⟨4, 11, none⟩, ⟨4, 12, none⟩,
       ⟨4, 13, none⟩, ⟨4, 5, none⟩],
    is_game_over := false,
    fen := "8/p3k3/8/8/8/P7/8/4K3 w - - 1 2".data }

/-- The state python-chess produces when the (illegal) black move a7a6 is
pushed onto `boardP3`: `Board.push` does not check legality, moves the pawn
and flips the side to move. -/
def boardP4 : Board :=
  { turn := false,
    piece_at := fun s =>
      if s = 4 then some ⟨true, "K".data⟩
      else if s = 16 then some ⟨true, "P".data⟩
      else if s = 52 then some ⟨false, "k".data⟩
      else if s = 40 then some ⟨false, "p".data⟩
      else none,
    legal_moves :=
      [⟨40, 32, none⟩, ⟨52, 43, none⟩, ⟨52, 44, none⟩, ⟨52, 45, none⟩,
       ⟨52, 51, none⟩, ⟨52, 53, none⟩, ⟨52, 59, none⟩, ⟨52, 60, none⟩,
       ⟨52, 61, none⟩],
    is_game_over := false,
    fen := "8/4k3/p7/8/8/P7/8/4K3 b - - 0 2".data }

/-- The rules engine's `Board.push` restricted to the moves of the concrete
trace through `boardP1`-`boardP4` (identity elsewhere). -/
def push4 (b : Board) (m : Move) : Board :=
  if b.fen = boardP1.fen ∧ m = ⟨8, 16, none⟩ then boardP2
  else if b.fen = boardP2.fen ∧ m = ⟨60, 52, none⟩ then boardP3
  else if b.fen = boardP3.fen ∧ m = ⟨48, 40, none⟩ then boardP4
  else b

/-- Fresh session on `boardP1`. -/
def c4_state0 : GameState := init_state boardP1

/-- One event batch: press on a2 (selects the white pawn), release on a3
(commits a2a3; the turn passes to Black), then — still in the same batch,
before the agent block runs — press on a7 (selects the black pawn, caching
Black's legal moves of `boardP2`). -/
def c4_events : List PEvent :=
  [.down 1 (0, 360), .up 1 (0, 300), .down 1 (0, 60)]

/-- The suggestion service answers `e8e7`, a legal reply in `boardP2`. -/
def c4_transport : TransportOutcome := .resp 200 (.ok (some "e8e7".data))

/-- The result of the first loop iteration on the batch above. -/
def c4_run : GameState × LoopExit :=
  (loop_iter push4 c4_state0 c4_events c4_transport).toOption.getD
    (c4_state0, .stopped)

/-- The session state after that iteration: the board is `boardP3` (White to
move), but square 48 is still selected with Black's cached moves. -/
def c4_st1 : GameState := c4_run.1

/-- A state with the stale selection reconstructed directly: board `boardP3`
(White to move) with the black pawn on a7 still selected and Black's moves
from `boardP2` cached. -/
def c4w_state : GameState :=
  { board := boardP3, record := [⟨8, 16, none⟩, ⟨60, 52, none⟩], saves := 2,
    selected_square := some 48,
    legal_moves := [⟨48, 40, none⟩, ⟨48, 32, none⟩],
    dragging := true, drag_piece := some "p".data, drag_pos := some (0, 60) }

/-- Lower-casing a character does not change whether it is whitespace. -/
theorem pyIsSpace_pyLowerChar (c : Char) :
    pyIsSpace (pyLowerChar c) = pyIsSpace c := by
  by_cases h1 : c = 'A'
  · subst h1; decide
  by_cases h2 : c = 'B'
  · subst h2; decide
  by_cases h3 : c = 'C'
  · subst h3; decide
  by_cases h4 : c = 'D'
  · subst h4; decide
  by_cases h5 : c = 'E'
  · subst h5; decide
  by_cases h6 : c = 'F'
  · subst h6; decide
  by_cases h7 : c = 'G'
  · subst h7; decide
  by_cases h8 : c = 'H'
  · subst h8; decide
  by_cases h9 : c = 'I'
  · subst h9; decide
  by_cases h10 : c = 'J'
  · subst h10; decide
  by_cases h11 : c = 'K'
  · subst h11; decide
  by_cases h12 : c = 'L'
  · subst h12; decide
  by_cases h13 : c = 'M'
  · subst h13; decide
  by_cases h14 : c = 'N'
  · subst h14; decide
  by_cases h15 : c = 'O'
  · subst h15; decide
  by_cases h16 : c = 'P'
  · subst h16; decide
  by_cases h17 : c = 'Q'
  · subst h17; decide
  by_cases h18 : c = 'R'
  · subst h18; decide
  by_cases h19 : c = 'S'
  · subst h19; decide
  by_cases h20 : c = 'T'
  · subst h20; decide
  by_cases h21 : c = 'U'
  · subst h21; decide
  by_cases h22 : c = 'V'
  · subst h22; decide
  by_cases h23 : c = 'W'
  · subst h23; decide
  by_cases h24 : c = 'X'
  · subst h24; decide
  by_cases h25 : c = 'Y'
  · subst h25; decide
  by_cases h26 : c = 'Z'
  · subst h26; decide
  simp only [pyLowerChar, if_neg h1, if_neg h2, if_neg h3, if_neg h4,
    if_neg h5, if_neg h6, if_neg h7, if_neg h8, if_neg h9, if_neg h10,
    if_neg h11, if_neg h12, if_neg h13, if_neg h14, if_neg h15, if_neg h16,
    if_neg h17, if_neg h18, if_neg h19, if_neg h20, if_neg h21, if_neg h22,
    if_neg h23, if_neg h24, if_neg h25, if_neg h26]

/-- All-whitespace input: `splitWsAux` just flushes the accumulator. -/
theorem splitWsAux_all_space :
    ∀ (t acc : List Char), (∀ c ∈ t, pyIsSpace c = true) →
      splitWsAux t acc = if acc = [] then [] else [acc.reverse] := by
  intro t
  induction t with
  | nil => intro acc _; rfl
  | cons c s ih =>
    intro acc h
    have hc : pyIsSpace c = true := h c (by simp)
    have hs : ∀ x ∈ s, pyIsSpace x = true := fun x hx => h x (by simp [hx])
    by_cases ha : acc = [] <;>
      simp [splitWsAux, hc, ha, ih [] hs]

/-- Appending trailing whitespace does not change the token list. -/
theorem splitWsAux_append_space :
    ∀ (s t acc : List Char), (∀ c ∈ t, pyIsSpace c = true) →
      splitWsAux (s ++ t) acc = splitWsAux s acc := by
  intro s
  induction s with
  | nil =>
    intro t acc h
    rw [List.nil_append, splitWsAux_all_space t acc h]
    rfl
  | cons c s ih =>
    intro t acc h
    by_cases hc : pyIsSpace c = true <;>
      by_cases ha : acc = [] <;>
        simp [splitWsAux, hc, ha, ih t _ h]

/-- Dropping leading whitespace does not change the token list. -/
theorem splitWsAux_dropWhile :
    ∀ (s : List Char),
      splitWsAux (s.dropWhile pyIsSpace) [] = splitWsAux s [] := by
  intro s
  induction s with
  | nil => rfl
  | cons c s ih =>
    by_cases hc : pyIsSpace c = true <;>
      simp [List.dropWhile_cons, splitWsAux, hc, ih]

/-- `str.strip()` does not change the result of `str.split()`. -/
theorem pySplit_pyStrip (s : Ustr) : pySplit (pyStrip s) = pySplit s := by
  unfold pySplit pyStrip
  have hsplit :
      (s.dropWhile pyIsSpace).reverse.takeWhile pyIsSpace ++
        (s.dropWhile pyIsSpace).reverse.dropWhile pyIsSpace =
        (s.dropWhile pyIsSpace).reverse :=
    List.takeWhile_append_dropWhile pyIsSpace _
  have hdecomp :
      ((s.dropWhile pyIsSpace).reverse.dropWhile pyIsSpace).reverse ++
        ((s.dropWhile pyIsSpace).reverse.takeWhile pyIsSpace).reverse =
        s.dropWhile pyIsSpace := by
    rw [← List.reverse_append, hsplit, List.reverse_reverse]
  have htail :
      ∀ c ∈ ((s.dropWhile pyIsSpace).reverse.takeWhile pyIsSpace).reverse,
        pyIsSpace c = true := by
    intro c hcmem
    exact List.mem_takeWhile_imp (List.mem_reverse.mp hcmem)
  calc
    splitWsAux ((s.dropWhile pyIsSpace).reverse.dropWhile pyIsSpace).reverse []
        = splitWsAux
            (((s.dropWhile pyIsSpace).reverse.dropWhile pyIsSpace).reverse ++
              ((s.dropWhile pyIsSpace).reverse.takeWhile pyIsSpace).reverse)
            [] := (splitWsAux_append_space _ _ [] htail).symm
    _ = splitWsAux (s.dropWhile pyIsSpace) [] := by rw [hdecomp]
    _ = splitWsAux s [] := splitWsAux_dropWhile s

/-- Lower-casing distributes over whitespace splitting. -/
theorem splitWsAux_map_lower :
    ∀ (s acc : List Char),
      splitWsAux (s.map pyLowerChar) (acc.map pyLowerChar) =
        (splitWsAux s acc).map (List.map pyLowerChar) := by
  intro s
  induction s with
  | nil =>
    intro acc
    by_cases ha : acc = [] <;>
      simp [splitWsAux, ha, List.map_eq_nil_iff, List.map_reverse]
  | cons c s ih =>
    intro acc
    have hnil := ih []
    simp only [List.map_nil] at hnil
    by_cases hc : pyIsSpace c = true
    · by_cases ha : acc = []
      · simp only [List.map_cons, splitWsAux, pyIsSpace_pyLowerChar, hc,
          if_pos rfl, ha, List.map_nil, if_pos (rfl : ([] : List Char) = [])]
        exact hnil
      · have hmap : acc.map pyLowerChar ≠ [] := by
          simpa [List.map_eq_nil_iff] using ha
        simp only [List.map_cons, splitWsAux, pyIsSpace_pyLowerChar, hc,
          if_pos rfl, if_neg ha, if_neg hmap, List.map_cons, hnil,
          List.map_reverse, if_true]
    · simp only [List.map_cons, splitWsAux, pyIsSpace_pyLowerChar, hc,
        if_neg hc, Bool.false_eq_true, if_false]
      rw [← List.map_cons]
      exact ih (c :: acc)

/-- `str.lower()` maps the token list of `str.split()` tokenwise. -/
theorem pySplit_pyLower (s : Ustr) :
    pySplit (pyLower s) = (pySplit s).map pyLower := by
  have := splitWsAux_map_lower s []
  simpa [pySplit, pyLower] using this

/-- The token the code extracts is the first whitespace-delimited token of the
raw response, lower-cased. -/
theorem extract_first_token (r : Ustr) (w : Ustr) (rest : List Ustr)
    (h : pySplit r = w :: rest) :
    pySplit (pyLower (pyStrip r)) = pyLower w :: rest.map pyLower := by
  rw [pySplit_pyLower, pySplit_pyStrip, h]
  rfl

/-- C5: for every raw textual suggestion response that parses (its token list
is nonempty), `get_ai_move` takes exactly the first whitespace-delimited token
of the response, lower-cased, as the candidate move, and returns the accepted
move exactly when that token is byte-for-byte (list-of-characters equality) a
member of the legal-move set in UCI encoding; any non-member token yields
`None`. -/
theorem get_ai_move_token_validation (legal : List Ustr) (r w : Ustr)
    (rest : List Ustr) (h : pySplit r = w :: rest) :
    (get_ai_move legal (.resp 200 (.ok (some r)))).1 =
      .ok (if pyLower w ∈ legal then some (pyLower w) else none) := by
  have hx := extract_first_token r w rest h
  by_cases hleg : legal.isEmpty
  · have hnil : legal = [] := by simpa using hleg
    subst hnil
    simp [get_ai_move]
  · by_cases hm : pyLower w ∈ legal <;> simp [get_ai_move, hleg, hx, hm]

/-- Witness for C5: the response `" E2e4 is best"` parses to first token
`E2e4`, lower-cased `e2e4`, which is in the legal set, so it is accepted. -/
theorem get_ai_move_token_validation_witness :
    (get_ai_move ["e2e4".data]
        (.resp 200 (.ok (some " E2e4 is best".data)))).1 =
      .ok (some "e2e4".data) := by
  have h := get_ai_move_token_validation ["e2e4".data] " E2e4 is best".data
    "E2e4".data ["is".data, "best".data] (by decide)
  have hmem : pyLower "E2e4".data ∈ ["e2e4".data] := by decide
  have hval : pyLower "E2e4".data = "e2e4".data := by decide
  rw [h, if_pos hmem, hval]

/-- C6: the controller enters a `Selected`/`Dragging` state only through a
first click on an on-board square holding a piece whose colour equals the side
to move (and the board is untouched by that step); when the condition fails
the state is returned unchanged; and any click handled while a square is
already selected leaves the controller unselected. -/
theorem selection_requires_own_piece :
    (∀ push mouse (st : GameState) pos,
      st.selected_square = none →
        ((handle_click push mouse st pos).1.board = st.board ∧
          (handle_click push mouse st pos).2 = none) ∧
        (∀ s, (handle_click push mouse st pos).1.selected_square = some s →
          pos_to_square pos = some s ∧
          ∃ pc, st.board.piece_at s = some pc ∧
            pc.color = st.board.turn) ∧
        ((∀ s pc, pos_to_square pos = some s →
            st.board.piece_at s = some pc → pc.color ≠ st.board.turn) →
          (handle_click push mouse st pos).1 = st)) ∧
    (∀ push mouse (st : GameState) pos s₀ sq,
      st.selected_square = some s₀ → pos_to_square pos = some sq →
      (handle_click push mouse st pos).1.selected_square = none) := by
  constructor
  · intro push mouse st pos hsel
    cases hsq : pos_to_square pos with
    | none =>
      refine ⟨⟨?_, ?_⟩, ?_, ?_⟩ <;> simp [handle_click, hsq, hsel]
    | some square =>
      cases hpc : st.board.piece_at square with
      | none =>
        refine ⟨⟨?_, ?_⟩, ?_, ?_⟩ <;> simp [handle_click, hsq, hsel, hpc]
      | some piece =>
        by_cases hcol : piece.color = st.board.turn
        · refine ⟨⟨?_, ?_⟩, ?_, ?_⟩
          · simp [handle_click, hsq, hsel, hpc, hcol]
          · simp [handle_click, hsq, hsel, hpc, hcol]
          · intro s hs
            simp only [handle_click, hsq, hsel, hpc, hcol, if_true,
              Option.some.injEq] at hs
            subst hs
            exact ⟨rfl, piece, hpc, hcol⟩
          · intro hno
            exact absurd hcol (hno square piece rfl hpc)
        · refine ⟨⟨?_, ?_⟩, ?_, ?_⟩ <;>
            simp [handle_click, hsq, hsel, hpc, hcol]
  · intro push mouse st pos s₀ sq hsel hsq
    by_cases hmem : (⟨s₀, sq, none⟩ : Move) ∈ st.legal_moves <;>
      simp [handle_click, hsq, hsel, hmem]

/-- Witness for C6: a first click on a2 in `boardP1` (White to move, white
pawn on a2) leaves the board untouched, emits nothing, and any selection it
makes is of the clicked square with a piece of the side to move. -/
theorem selection_requires_own_piece_witness :
    (handle_click push4 (0, 360) (init_state boardP1) (0, 360)).1.board =
        (init_state boardP1).board ∧
      (handle_click push4 (0, 360) (init_state boardP1) (0, 360)).2 = none ∧
      pos_to_square (0, 360) = some 8 ∧
      ∃ pc, (init_state boardP1).board.piece_at 8 = some pc ∧
        pc.color = (init_state boardP1).board.turn := by
  have h := selection_requires_own_piece.1 push4 (0, 360)
    (init_state boardP1) (0, 360) rfl
  have hs : (handle_click push4 (0, 360) (init_state boardP1)
      (0, 360)).1.selected_square = some 8 := by decide
  exact ⟨h.1.1, h.1.2, (h.2.1 8 hs).1, (h.2.1 8 hs).2⟩

/-- If `handle_click` commits no move, the board, record and save count are
unchanged. -/
theorem handle_click_no_emit (push : Board → Move → Board) (mouse : Int × Int)
    (st : GameState) (pos : Int × Int)
    (h : (handle_click push mouse st pos).2 = none) :
    (handle_click push mouse st pos).1.board = st.board ∧
      (handle_click push mouse st pos).1.record = st.record := by
  cases hsq : pos_to_square pos with
  | none => simp [handle_click, hsq]
  | some square =>
    cases hsel : st.selected_square with
    | none =>
      cases hpc : st.board.piece_at square with
      | none => simp [handle_click, hsq, hsel, hpc]
      | some piece =>
        by_cases hcol : piece.color = st.board.turn <;>
          simp [handle_click, hsq, hsel, hpc, hcol]
    | some sel =>
      by_cases hmem : (⟨sel, square, none⟩ : Move) ∈ st.legal_moves
      · simp [handle_click, hsq, hsel, hmem] at h
      · simp [handle_click, hsq, hsel, hmem]

/-- If a whole event batch commits no move, the board and the record are
unchanged at the end of the batch. -/
theorem process_events_no_emit (push : Board → Move → Board) :
    ∀ (events : List PEvent) (st : GameState) (running : Bool),
      (process_events push st running events).2.2 = [] →
      (process_events push st running events).1.board = st.board ∧
        (process_events push st running events).1.record = st.record := by
  intro events
  induction events with
  | nil => intro st running _; exact ⟨rfl, rfl⟩
  | cons e rest ih =>
    intro st running h
    cases e with
    | quit =>
      simp only [process_events] at h ⊢
      exact ih st false h
    | down b pos =>
      by_cases hb : b = 1
      · simp only [process_events, hb, if_pos rfl] at h ⊢
        rcases List.append_eq_nil.mp h with ⟨h1, h2⟩
        have hnone : (handle_click push pos st pos).2 = none := by
          cases hopt : (handle_click push pos st pos).2 with
          | none => rfl
          | some m => rw [hopt] at h1; simp at h1
        have hk := ih (handle_click push pos st pos).1 running h2
        have hc := handle_click_no_emit push pos st pos hnone
        exact ⟨hk.1.trans hc.1, hk.2.trans hc.2⟩
      · simp only [process_events, hb, if_neg hb] at h ⊢
        exact ih st running h
    | up b pos =>
      by_cases hb : b = 1 ∧ st.dragging = true
      · simp only [process_events, hb, if_pos hb] at h ⊢
        rcases List.append_eq_nil.mp h with ⟨h1, h2⟩
        have hnone : (handle_click push pos st pos).2 = none := by
          cases hopt : (handle_click push pos st pos).2 with
          | none => rfl
          | some m => rw [hopt] at h1; simp at h1
        have hk := ih (handle_click push pos st pos).1 running h2
        have hc := handle_click_no_emit push pos st pos hnone
        exact ⟨hk.1.trans hc.1, hk.2.trans hc.2⟩
      · simp only [process_events, if_neg hb] at h ⊢
        exact ih st running h
    | motion pos =>
      by_cases hd : st.dragging = true
      · simp only [process_events, hd, if_true] at h ⊢
        exact ih _ running h
      · simp only [process_events, if_neg hd] at h ⊢
        exact ih st running h

/-- C7: a second click on an on-board square `t` with
`Move(selectedSquare, t)` not in the cached legal set commits nothing, leaves
the board (Position) and the record (MatchRecord) unchanged, and clears the
selection back to Idle; and any repetition of non-committing events across
whole event batches likewise leaves board and record unchanged. -/
theorem illegal_click_rejection :
    (∀ push mouse (st : GameState) pos s sq,
      st.selected_square = some s → pos_to_square pos = some sq →
      (⟨s, sq, none⟩ : Move) ∉ st.legal_moves →
        (handle_click push mouse st pos).2 = none ∧
        (handle_click push mouse st pos).1.board = st.board ∧
        (handle_click push mouse st pos).1.record = st.record ∧
        (handle_click push mouse st pos).1.selected_square = none ∧
        (handle_click push mouse st pos).1.dragging = false) ∧
    (∀ push (st : GameState) running events,
      (process_events push st running events).2.2 = [] →
      (process_events push st running events).1.board = st.board ∧
        (process_events push st running events).1.record = st.record) := by
  constructor
  · intro push mouse st pos s sq hsel hsq hmem
    refine ⟨?_, ?_, ?_, ?_, ?_⟩ <;> simp [handle_click, hsq, hsel, hmem]
  · intro push st running events h
    exact process_events_no_emit push events st running h

/-- Witness for C7: in `c3_state` (pawn on e7 selected) a click on a8
(square 56) is an illegal destination: nothing is committed, board and record
are unchanged, the selection is cleared. -/
theorem illegal_click_rejection_witness :
    (handle_click (fun b _ => b) (0, 0) c3_state (0, 0)).2 = none ∧
      (handle_click (fun b _ => b) (0, 0) c3_state (0, 0)).1.board =
        c3_state.board ∧
      (handle_click (fun b _ => b) (0, 0) c3_state (0, 0)).1.record =
        c3_state.record ∧
      (handle_click (fun b _ => b) (0, 0) c3_state (0, 0)).1.selected_square =
        none ∧
      (handle_click (fun b _ => b) (0, 0) c3_state (0, 0)).1.dragging =
        false :=
  illegal_click_rejection.1 (fun b _ => b) (0, 0) c3_state (0, 0) 52 56
    rfl rfl (by decide)

/-- C9: for every square s in [0,63], `pos_to_square (square_to_pos s) = s`:
the board-to-screen projection and the screen-to-board mapping are mutually
inverse on all board squares. -/
theorem pos_square_roundtrip (s : Nat) (h : s < 64) :
    pos_to_square (square_to_pos s) = some s := by
  have key : ∀ x : Fin 64, pos_to_square (square_to_pos x.val) = some x.val := by
    decide
  exact key ⟨s, h⟩

/-- Witness for C9 at the concrete square 27. -/
theorem pos_square_roundtrip_witness :
    pos_to_square (square_to_pos 27) = some 27 :=
  pos_square_roundtrip 27 (by decide)

/-- C10: when the position has zero legal moves (the rules engine derives an
empty legal-move list from the FEN), `get_ai_move` returns `None` immediately
and never issues the network request, whatever the transport would have
done. -/
theorem get_ai_move_no_legal (t : TransportOutcome) :
    get_ai_move [] t = (.ok none, false) := rfl

/-- C2 (failing case): with legal moves available, a 200 response whose JSON
`"response"` field is whitespace-only makes `get_ai_move` raise an uncaught
`IndexError` (from `move.split()[0]`) instead of returning `None`: the
`except` clause at line 282 does not catch `IndexError`. -/
theorem get_ai_move_empty_response_raises :
    get_ai_move ["e2e4".data] (.resp 200 (.ok (some "   ".data))) =
      (.error .indexError, true) := rfl

/-- C8: a persistence failure is absorbed: `save_game` raises no exception,
returns the in-memory state unchanged and writes nothing; a later successful
`save_game` call (the record may have grown in the meantime) again returns the
state unchanged and writes the complete move history. -/
theorem save_game_failure_absorbed (st st' : GameState) :
    save_game .ioError st = .ok (st, none) ∧
      save_game .success st' = .ok (st', some st'.record) :=
  ⟨rfl, rfl⟩

/-- C3 (counterexample to the claim as stated): in `c3_state` the pawn on e7
(square 52) is selected and its only legal moves are the four promotions to
e8 (square 60) — full Moves from 52 to 60, members of the cached legal set.
A click on e8 nevertheless commits nothing (the constructed
`chess.Move(52, 60)` has `promotion = None` and so is not a member), the
record stays empty and no save happens: a legal promotion move can never be
committed. -/
theorem promotion_click_not_committed :
    c3_state.selected_square = some 52 ∧
      pos_to_square (240, 0) = some 60 ∧
      (⟨52, 60, some 5⟩ : Move) ∈ c3_state.legal_moves ∧
      (handle_click (fun b _ => b) (240, 0) c3_state (240, 0)).2 = none ∧
      (handle_click (fun b _ => b) (240, 0) c3_state (240, 0)).1.record =
        [] ∧
      (handle_click (fun b _ => b) (240, 0) c3_state (240, 0)).1.saves = 0 :=
  ⟨rfl, rfl, by decide, rfl, rfl, rfl⟩

/-- C3 (as amended): on a second click mapping to an on-board square `sq`,
the controller commits a move exactly when the promotion-free
`Move(selectedSquare, sq)` (with `promotion = None`) is a member of the cached
legal set — so legal promotion moves, whose full value differs in the
promotion field, can never be committed — and regardless of the outcome the
state returns to Idle with the drag state cleared. -/
theorem second_click_commit_iff (push : Board → Move → Board)
    (mouse : Int × Int) (st : GameState) (pos : Int × Int) (s sq : Nat)
    (hsel : st.selected_square = some s) (hsq : pos_to_square pos = some sq) :
    ((handle_click push mouse st pos).2 = some ⟨s, sq, none⟩ ↔
        (⟨s, sq, none⟩ : Move) ∈ st.legal_moves) ∧
      ((⟨s, sq, none⟩ : Move) ∈ st.legal_moves →
        (handle_click push mouse st pos).1.board =
            push st.board ⟨s, sq, none⟩ ∧
          (handle_click push mouse st pos).1.record =
            st.record ++ [⟨s, sq, none⟩]) ∧
      ((⟨s, sq, none⟩ : Move) ∉ st.legal_moves →
        (handle_click push mouse st pos).1.board = st.board ∧
          (handle_click push mouse st pos).1.record = st.record) ∧
      (handle_click push mouse st pos).1.selected_square = none ∧
      (handle_click push mouse st pos).1.dragging = false ∧
      (handle_click push mouse st pos).1.drag_piece = none ∧
      (handle_click push mouse st pos).1.legal_moves = [] := by
  by_cases hmem : (⟨s, sq, none⟩ : Move) ∈ st.legal_moves <;>
    simp [handle_click, hsq, hsel, hmem, make_move]

/-- Witness for the amended C3: in the stale-selection state `c4w_state`
(square 48 selected, a7a6 cached) a click on a6 commits exactly the
promotion-free move 48→40 and appends it to the record. -/
theorem second_click_commit_iff_witness :
    (handle_click push4 (0, 120) c4w_state (0, 120)).2 =
        some ⟨48, 40, none⟩ ∧
      (handle_click push4 (0, 120) c4w_state (0, 120)).1.record =
        c4w_state.record ++ [⟨48, 40, none⟩] ∧
      (handle_click push4 (0, 120) c4w_state (0, 120)).1.selected_square =
        none := by
  have h := second_click_commit_iff push4 (0, 120) c4w_state (0, 120) 48 40
    rfl rfl
  exact ⟨h.1.mpr (by decide), (h.2.1 (by decide)).2, h.2.2.2.1⟩

/-- C4 (counterexample to the claim as stated): starting a fresh session on
`boardP1`, one event batch selects the white pawn a2, commits a2a3 on
release, and then — the turn now being Black's, before the agent block runs —
selects the black pawn a7, caching Black's moves of `boardP2`.  The agent
then plays e8e7, giving `boardP3` (White to move).  The iteration reports
`cont` and leaves square 48 selected with the stale cache; the next click on
a6 commits the black move a7a6, which is applied to the board although it is
not a member of `boardP3.legal_moves` at the time of acceptance. -/
theorem stale_selection_illegal_commit :
    c4_run.2 = LoopExit.cont ∧
      c4_st1.record = [⟨8, 16, none⟩, ⟨60, 52, none⟩] ∧
      c4_st1.board.fen = boardP3.fen ∧
      c4_st1.selected_square = some 48 ∧
      (handle_click push4 (0, 120) c4_st1 (0, 120)).2 =
        some ⟨48, 40, none⟩ ∧
      (handle_click push4 (0, 120) c4_st1 (0, 120)).1.record =
        [⟨8, 16, none⟩, ⟨60, 52, none⟩, ⟨48, 40, none⟩] ∧
      (⟨48, 40, none⟩ : Move) ∉ c4_st1.board.legal_moves :=
  ⟨rfl, rfl, rfl, rfl, rfl, rfl, by decide⟩

/-- C4 (as amended): a committed human move is always the promotion-free move
from the selected square to the clicked square and a member of the legal-move
set cached at selection time; the cache installed by a selection is exactly
the from-square filter of the legal-move set of the board current at that
selection; and an agent move applied by the agent block is a member of the
board's legal-move set at the time of acceptance.  Membership of a
human-committed move in the legal set of the board current at commit time is
not guaranteed (see the counterexample). -/
theorem legality_closure_amended :
    (∀ push mouse (st : GameState) pos s sq m,
      st.selected_square = some s → pos_to_square pos = some sq →
      (handle_click push mouse st pos).2 = some m →
      m = ⟨s, sq, none⟩ ∧ m ∈ st.legal_moves) ∧
    (∀ push mouse (st : GameState) pos s,
      st.selected_square = none →
      (handle_click push mouse st pos).1.selected_square = some s →
      (handle_click push mouse st pos).1.legal_moves =
          st.board.legal_moves.filter (fun mv => mv.from_square = s) ∧
        ∀ mv ∈ (handle_click push mouse st pos).1.legal_moves,
          mv ∈ st.board.legal_moves) ∧
    (∀ push (st : GameState) t st2 broke,
      agent_phase push st t = .ok (st2, broke) → st2.record ≠ st.record →
      ∃ m, st2.record = st.record ++ [m] ∧ m ∈ st.board.legal_moves) := by
  refine ⟨?_, ?_, ?_⟩
  · intro push mouse st pos s sq m hsel hsq hm
    by_cases hmem : (⟨s, sq, none⟩ : Move) ∈ st.legal_moves
    · have hsome : (handle_click push mouse st pos).2 =
          some ⟨s, sq, none⟩ := by
        simp [handle_click, hsq, hsel, hmem]
      rw [hsome] at hm
      injection hm with hmv
      subst hmv
      exact ⟨rfl, hmem⟩
    · simp [handle_click, hsq, hsel, hmem] at hm
  · intro push mouse st pos s hsel hs
    cases hsq : pos_to_square pos with
    | none =>
      rw [show (handle_click push mouse st pos).1 = st by
        simp [handle_click, hsq]] at hs
      rw [hsel] at hs
      cases hs
    | some square =>
      cases hpc : st.board.piece_at square with
      | none =>
        rw [show (handle_click push mouse st pos).1 = st by
          simp [handle_click, hsq, hsel, hpc]] at hs
        rw [hsel] at hs
        cases hs
      | some piece =>
        by_cases hcol : piece.color = st.board.turn
        · have hsq' : (handle_click push mouse st pos).1.selected_square =
              some square := by
            simp [handle_click, hsq, hsel, hpc, hcol]
          rw [hsq'] at hs
          cases hs
          constructor
          · simp [handle_click, hsq, hsel, hpc, hcol]
          · intro mv hmv
            simp only [handle_click, hsq, hsel, hpc, hcol, if_true,
              List.mem_filter] at hmv
            exact hmv.1
        · rw [show (handle_click push mouse st pos).1 = st by
            simp [handle_click, hsq, hsel, hpc, hcol]] at hs
          rw [hsel] at hs
          cases hs
  · intro push st t st2 broke hph hne
    unfold agent_phase at hph
    by_cases hcond : st.board.turn = false ∧ st.board.is_game_over = false
    · rw [if_pos hcond] at hph
      cases hg : (get_ai_move (st.board.legal_moves.map uci) t).1 with
      | error e => rw [hg] at hph; cases hph
      | ok ai =>
        rw [hg] at hph
        cases ai with
        | none =>
          simp only [Except.ok.injEq, Prod.mk.injEq] at hph
          exact absurd (hph.1.symm ▸ rfl) hne
        | some u =>
          dsimp only at hph
          by_cases hu : u ≠ []
          · rw [if_pos hu] at hph
            cases hfu : from_uci u with
            | none => rw [hfu] at hph; cases hph
            | some m =>
              rw [hfu] at hph
              dsimp only at hph
              by_cases hmem : m ∈ st.board.legal_moves
              · rw [if_pos hmem] at hph
                simp only [Except.ok.injEq, Prod.mk.injEq] at hph
                refine ⟨m, ?_, hmem⟩
                rw [← hph.1]
                rfl
              · rw [if_neg hmem] at hph
                simp only [Except.ok.injEq, Prod.mk.injEq] at hph
                exact absurd (hph.1.symm ▸ rfl) hne
          · rw [if_neg hu] at hph
            simp only [Except.ok.injEq, Prod.mk.injEq] at hph
            exact absurd (hph.1.symm ▸ rfl) hne
    · rw [if_neg hcond] at hph
      simp only [Except.ok.injEq, Prod.mk.injEq] at hph
      exact absurd (hph.1.symm ▸ rfl) hne

/-- Witness for the amended C4: the commit in `c4w_state` is the promotion-free
move 48→40 and a member of the cached legal set. -/
theorem legality_closure_amended_witness :
    (⟨48, 40, none⟩ : Move) = ⟨48, 40, none⟩ ∧
      (⟨48, 40, none⟩ : Move) ∈ c4w_state.legal_moves :=
  legality_closure_amended.1 push4 (0, 120) c4w_state (0, 120) 48 40
    ⟨48, 40, none⟩ rfl rfl (by decide)

/-- C1 (counterexample to the claim as stated): with Black to move in
`board_kr` and the transport failing (`requests.RequestException`),
`get_ai_move` returns `None`, the loop executes `break` — the aborted
termination — and the resulting state is bit-for-bit the input state: the
save count stays 0, so no final persist call is made on entry to the aborted
termination (the claim requires exactly one). -/
theorem abort_without_final_persist :
    loop_iter (fun b _ => b) c1_state [] .exn = .ok (c1_state, .aborted) ∧
      c1_state.saves = 0 :=
  ⟨rfl, rfl⟩

/-- C1 (as amended): whenever the session is awaiting the agent's move (Black
to move, game not over) and the suggestion is rejected (`get_ai_move` returns
`None`: transport failure, non-success status, JSON parse failure, or a
suggested token not in the legal-move set), the iteration ends with the
aborted exit and the state — in particular the persist-call count — is
unchanged: no final persist call is made on entry to the aborted
termination. -/
theorem agent_rejection_aborts (push : Board → Move → Board)
    (st : GameState) (t : TransportOutcome)
    (h1 : st.board.turn = false) (h2 : st.board.is_game_over = false)
    (h3 : (get_ai_move (st.board.legal_moves.map uci) t).1 = .ok none) :
    loop_iter push st [] t = .ok (st, .aborted) := by
  simp [loop_iter, process_events, agent_phase, h1, h2, h3]

/-- Witness for the amended C1: in `board_kr` with a 500-status response the
suggestion is rejected and the iteration aborts with the state unchanged. -/
theorem agent_rejection_aborts_witness :
    loop_iter (fun b _ => b) c1_state [] (.resp 500 (.ok none)) =
      .ok (c1_state, .aborted) :=
  agent_rejection_aborts (fun b _ => b) c1_state (.resp 500 (.ok none))
    rfl rfl rfl

end ChessBackend
